import Mathlib

/-!
Shallow embedding of the variation job engine of `src/app.js`
(simple-video-app): JS numeric semantics, the config synthesizer,
the similarity scorer, the FFmpeg filter pipeline builder, the job
processing loop, and the HTTP-facing process/status handlers, together
with theorems settling the frozen claims about the spec.

JavaScript numbers are modelled as either NaN or an exact rational
(`JNum`); `undefined` entering arithmetic or comparison behaves as NaN,
which the `optVal` coercion makes explicit.  Every `Math.random()` call
of the source is an explicit input draw.
-/

namespace VideoApp

/-- A JavaScript number: NaN or a finite rational.  Infinities never
arise in this program (the only division, `1/speed` and `(100-c)/100`,
happens under guards that force a nonzero divisor). -/
inductive JNum where
  | nan : JNum
  | num : ℚ → JNum
deriving DecidableEq, Repr

namespace JNum

/-- JS subtraction; NaN propagates. -/
def sub : JNum → JNum → JNum
  | num a, num b => num (a - b)
  | _, _ => nan

/-- JS addition; NaN propagates. -/
def add : JNum → JNum → JNum
  | num a, num b => num (a + b)
  | _, _ => nan

/-- JS multiplication; NaN propagates. -/
def mul : JNum → JNum → JNum
  | num a, num b => num (a * b)
  | _, _ => nan

/-- JS division; NaN propagates.  (Division by zero would give an
infinity in JS, but is unreachable here: both divisions in the source
sit under truthiness guards forcing the divisor nonzero.) -/
def div : JNum → JNum → JNum
  | num a, num b => if b = 0 then nan else num (a / b)
  | _, _ => nan

/-- `Math.abs`. -/
def abs : JNum → JNum
  | num a => num |a|
  | nan => nan

/-- JS `>` comparison: false whenever an operand is NaN. -/
def gt : JNum → JNum → Bool
  | num a, num b => decide (b < a)
  | _, _ => false

/-- JS truthiness of a number: `0` and `NaN` are falsy. -/
def truthy : JNum → Bool
  | num a => decide (a ≠ 0)
  | nan => false

end JNum

/-- `Math.round` on a finite value: round half toward positive infinity. -/
def jsRound (q : ℚ) : ℤ := ⌊q + 1/2⌋

/-- `Math.round` as a JS-number operation (NaN propagates). -/
def jsRoundJ : JNum → JNum
  | .num q => .num ((jsRound q : ℤ) : ℚ)
  | .nan => .nan

/-- `Math.min`: NaN if either argument is NaN. -/
def jsMin : JNum → JNum → JNum
  | .num a, .num b => .num (min a b)
  | _, _ => .nan

/-- `Math.max`: NaN if either argument is NaN. -/
def jsMax : JNum → JNum → JNum
  | .num a, .num b => .num (max a b)
  | _, _ => .nan

/-- Reading a possibly-absent object property in a numeric context:
`undefined` behaves as NaN in JS arithmetic and comparisons. -/
def optVal : Option JNum → JNum
  | none => .nan
  | some v => v

/-- JS truthiness of a possibly-absent number (`undefined` is falsy). -/
def truthyOpt (x : Option JNum) : Bool := (optVal x).truthy

/-- JS truthiness of a possibly-absent boolean flag. -/
def flagSet : Option Bool → Bool
  | some true => true
  | _ => false

/-- The synthesized parameter set for one variation
(`generateProcessingConfig`'s result object).  `none` models an absent
key; a present key holds a JS number or boolean. -/
structure Config where
  speed : Option JNum := none
  brightness : Option JNum := none
  contrast : Option JNum := none
  saturation : Option JNum := none
  gamma : Option JNum := none
  volume : Option JNum := none
  scale : Option JNum := none
  cropMargins : Option JNum := none
  flipHorizontal : Option Bool := none
  addNoise : Option Bool := none
deriving DecidableEq, Repr

/-- The config with every parameter absent. -/
def emptyConfig : Config := {}

/-- One statement `if (guard) similarity -= penalty;` of the scorer:
subtract `penalty` from the running value when the guard holds. -/
def penStep (guard : Bool) (penalty : JNum) (similarity : JNum) : JNum :=
  if guard then similarity.sub penalty else similarity

/-- `calculateSimilarity` of `src/app.js` (lines 206–222), transcribed
guard by guard.  `similarity` starts at 100; each `penStep` line is one
`if (...) similarity -= ...;` statement of the source; the result is
`Math.max(50, Math.min(70, Math.round(similarity)))`. -/
def calculateSimilarity (config : Config) : JNum :=
  let similarity : JNum := .num 100
  -- if (Math.abs(config.speed - 1) > 0.02) similarity -= 5;
  let similarity := penStep (((optVal config.speed).sub (.num 1)).abs.gt (.num 0.02))
    (.num 5) similarity
  -- if (Math.abs(config.brightness) > 0.02) similarity -= 4;
  let similarity := penStep ((optVal config.brightness).abs.gt (.num 0.02))
    (.num 4) similarity
  -- if (Math.abs(config.contrast - 1) > 0.02) similarity -= 4;
  let similarity := penStep (((optVal config.contrast).sub (.num 1)).abs.gt (.num 0.02))
    (.num 4) similarity
  -- if (Math.abs(config.saturation - 1) > 0.05) similarity -= 3;
  let similarity := penStep (((optVal config.saturation).sub (.num 1)).abs.gt (.num 0.05))
    (.num 3) similarity
  -- if (config.flipHorizontal) similarity -= 8;
  let similarity := penStep (flagSet config.flipHorizontal) (.num 8) similarity
  -- if (config.addNoise) similarity -= 3;
  let similarity := penStep (flagSet config.addNoise) (.num 3) similarity
  -- if (config.scale && Math.abs(config.scale - 1) > 0.01) similarity -= 3;
  let similarity := penStep (truthyOpt config.scale
      && ((optVal config.scale).sub (.num 1)).abs.gt (.num 0.01)) (.num 3) similarity
  -- if (config.cropMargins > 1) similarity -= Math.round(config.cropMargins);
  let similarity := penStep ((optVal config.cropMargins).gt (.num 1))
    (jsRoundJ (optVal config.cropMargins)) similarity
  -- if (Math.abs(config.volume - 1) > 0.05) similarity -= 2;
  let similarity := penStep (((optVal config.volume).sub (.num 1)).abs.gt (.num 0.05))
    (.num 2) similarity
  jsMax (.num 50) (jsMin (.num 70) (jsRoundJ similarity))

/-- Crop penalty of the scorer: `round(cropMargins)` when the margin
exceeds 1 (both code and spec agree on this term). -/
def cropPenalty (c : Config) : ℚ :=
  match c.cropMargins with
  | some (.num q) => if (JNum.num q).gt (.num 1) then ((jsRound q : ℤ) : ℚ) else 0
  | _ => 0

/-- The total penalty subtracted by `calculateSimilarity`, with exactly
the code's guards (in particular the `config.scale &&` truthiness
guard). -/
def codePenalty (c : Config) : ℚ :=
  (if ((optVal c.speed).sub (.num 1)).abs.gt (.num 0.02) then 5 else 0)
  + (if (optVal c.brightness).abs.gt (.num 0.02) then 4 else 0)
  + (if ((optVal c.contrast).sub (.num 1)).abs.gt (.num 0.02) then 4 else 0)
  + (if ((optVal c.saturation).sub (.num 1)).abs.gt (.num 0.05) then 3 else 0)
  + (if flagSet c.flipHorizontal then 8 else 0)
  + (if flagSet c.addNoise then 3 else 0)
  + (if truthyOpt c.scale && ((optVal c.scale).sub (.num 1)).abs.gt (.num 0.01) then 3 else 0)
  + cropPenalty c
  + (if ((optVal c.volume).sub (.num 1)).abs.gt (.num 0.05) then 2 else 0)

/-- The scorer as §4.3 of the spec words it: 100 minus a fixed penalty
for each parameter deviating beyond its threshold, clamped to [50,70].
The speed threshold is a parameter so that the claimed value (±4%) and
the code's value (±2%) can both be expressed.  Every other guard reads
off the spec sentence (no JS truthiness guard on `scale`). -/
def specScore (speedT : ℚ) (c : Config) : ℤ :=
  let penalties : ℚ :=
    (if ((optVal c.speed).sub (.num 1)).abs.gt (.num speedT) then 5 else 0)
    + (if (optVal c.brightness).abs.gt (.num 0.02) then 4 else 0)
    + (if ((optVal c.contrast).sub (.num 1)).abs.gt (.num 0.02) then 4 else 0)
    + (if ((optVal c.saturation).sub (.num 1)).abs.gt (.num 0.05) then 3 else 0)
    + (if flagSet c.flipHorizontal then 8 else 0)
    + (if flagSet c.addNoise then 3 else 0)
    + (if ((optVal c.scale).sub (.num 1)).abs.gt (.num 0.01) then 3 else 0)
    + cropPenalty c
    + (if ((optVal c.volume).sub (.num 1)).abs.gt (.num 0.05) then 2 else 0)
  max 50 (min 70 (jsRound (100 - penalties)))

/-- One subtraction step of the scorer chain, as plain arithmetic. -/
theorem penStep_num (g : Bool) (x k : ℚ) :
    penStep g (.num k) (.num x) = .num (x - if g then k else 0) := by
  cases g <;> simp [penStep, JNum.sub]

/-- A step whose guard is false leaves the value unchanged. -/
theorem penStep_false (p s : JNum) : penStep false p s = s := rfl

/-- Evaluating the final clamp on a finite similarity value. -/
theorem clamp_eval (x : ℚ) :
    jsMax (.num 50) (jsMin (.num 70) (jsRoundJ (.num x)))
      = .num ((max 50 (min 70 (jsRound x)) : ℤ) : ℚ) := by
  simp only [jsRoundJ, jsMin, jsMax]
  norm_cast

/-- Evaluating the final clamp when the rounded value is already an
integer cast. -/
theorem clamp_eval_int (z : ℤ) :
    jsMax (.num 50) (jsMin (.num 70) (.num (z : ℚ)))
      = .num ((max 50 (min 70 z) : ℤ) : ℚ) := by
  simp only [jsMin, jsMax]
  norm_cast

/-- `calculateSimilarity` always yields the clamp of `100 -
codePenalty`. -/
theorem calculateSimilarity_eq (c : Config) :
    calculateSimilarity c = .num ((max 50 (min 70 (jsRound (100 - codePenalty c))) : ℤ) : ℚ) := by
  unfold calculateSimilarity codePenalty cropPenalty
  rcases hcm : c.cropMargins with _ | v
  · simp only [hcm, optVal, JNum.gt, penStep_false, penStep_num, clamp_eval]
    ring_nf
  · rcases v with _ | q
    · simp only [hcm, optVal, JNum.gt, penStep_false, penStep_num, clamp_eval]
      ring_nf
    · simp only [hcm, optVal, jsRoundJ, penStep_num, clamp_eval_int]
      ring_nf

/-- The truthiness guard on `config.scale` is redundant unless the scale
is literally the number zero. -/
theorem scale_guard_eq (x : Option JNum) (h : x ≠ some (.num 0)) (t : ℚ) :
    (truthyOpt x && ((optVal x).sub (.num 1)).abs.gt (.num t))
      = ((optVal x).sub (.num 1)).abs.gt (.num t) := by
  rcases x with _ | v
  · rfl
  · rcases v with _ | q
    · rfl
    · have hq : q ≠ 0 := by rintro rfl; exact h rfl
      simp [truthyOpt, optVal, JNum.truthy, hq]

/-- C1: for every VariationConfig (including all-absent and extreme
ones), `calculateSimilarity` returns an integer in the inclusive range
[50,70]. -/
theorem similarity_always_in_range (c : Config) :
    ∃ z : ℤ, calculateSimilarity c = .num (z : ℚ) ∧ 50 ≤ z ∧ z ≤ 70 := by
  refine ⟨max 50 (min 70 (jsRound (100 - codePenalty c))), calculateSimilarity_eq c, ?_, ?_⟩
  · exact le_max_left _ _
  · exact max_le (by norm_num) (min_le_left _ _)

/-- C4 amended: the similarity score is 100 minus the sum of the fixed
penalties, clamped to [50,70], with the speed penalty triggered by a
deviation of more than ±2% (not ±4% as claimed); stated for configs
whose scale is not the literal number 0 (the code's JS truthiness guard
skips the scale penalty there, the synthesizer never produces it). -/
theorem similarity_matches_penalty_formula (c : Config) (h : c.scale ≠ some (.num 0)) :
    calculateSimilarity c = .num ((specScore 0.02 c : ℤ) : ℚ) := by
  rw [calculateSimilarity_eq]
  unfold specScore codePenalty
  rw [scale_guard_eq c.scale h]

/-- A config deviating on every parameter, with a 3% speed deviation:
the penalties of the code sum to 34 (score 66), those of the claimed
±4% speed threshold to 29 (score 70). -/
def cBig : Config :=
  { speed := some (.num (103/100)), brightness := some (.num (5/100)),
    contrast := some (.num (105/100)), saturation := some (.num (11/10)),
    gamma := none, volume := some (.num (11/10)), scale := some (.num (102/100)),
    cropMargins := some (.num 2), flipHorizontal := some true, addNoise := some true }

/-- C4 counterexample: at `cBig` the code scores 66, while the claimed
formula (speed penalty only beyond ±4%) gives 70. -/
theorem similarity_claimed_formula_fails :
    calculateSimilarity cBig = .num 66 ∧ specScore 0.04 cBig = 70 := by
  rw [calculateSimilarity_eq]
  norm_num [cBig, specScore, codePenalty, cropPenalty, optVal, JNum.sub, JNum.abs,
    JNum.gt, truthyOpt, JNum.truthy, flagSet, jsRound, abs_of_nonneg]

/-- Witness instantiating the amended scorer formula at `cBig`. -/
theorem similarity_matches_penalty_formula_witness :
    calculateSimilarity cBig = .num ((specScore 0.02 cBig : ℤ) : ℚ) :=
  similarity_matches_penalty_formula cBig (by simp [cBig])

/-! ### Config synthesizer (`generateProcessingConfig`, lines 65–109)

Each `Math.random()` call of the source is an input draw in `[0,1)`,
collected in `Draws`; only the draws of the selected family matter for
the output, so one named draw per sampled parameter suffices. -/

/-- The random draws consumed by one `generateProcessingConfig` call. -/
structure Draws where
  rSpeed : ℚ
  rBright : ℚ
  rContrast : ℚ
  rSat : ℚ
  rGamma : ℚ
  rVol : ℚ
  rFlip : ℚ
  rNoise : ℚ
  rScale : ℚ
  rCrop : ℚ
  jSpeed : ℚ
  jBright : ℚ
  jContrast : ℚ
deriving Repr

/-- Configuration 1: Speed + Brightness. -/
def config1 (d : Draws) : Config :=
  { speed := some (.num (0.95 + d.rSpeed * 0.1)),
    brightness := some (.num (-0.05 + d.rBright * 0.1)),
    contrast := some (.num (0.95 + d.rContrast * 0.1)),
    saturation := some (.num (0.9 + d.rSat * 0.2)),
    volume := some (.num (0.9 + d.rVol * 0.2)),
    flipHorizontal := some (decide (d.rFlip > 0.7)) }

/-- Configuration 2: Color + Audio. -/
def config2 (d : Draws) : Config :=
  { speed := some (.num (0.98 + d.rSpeed * 0.04)),
    brightness := some (.num (-0.02 + d.rBright * 0.04)),
    contrast := some (.num (0.98 + d.rContrast * 0.04)),
    saturation := some (.num (0.95 + d.rSat * 0.1)),
    gamma := some (.num (0.95 + d.rGamma * 0.1)),
    volume := some (.num (0.95 + d.rVol * 0.1)),
    addNoise := some (decide (d.rNoise > 0.6)) }

/-- Configuration 3: Geometric changes. -/
def config3 (d : Draws) : Config :=
  { speed := some (.num (0.96 + d.rSpeed * 0.08)),
    brightness := some (.num (-0.03 + d.rBright * 0.06)),
    scale := some (.num (0.98 + d.rScale * 0.04)),
    cropMargins := some (.num (d.rCrop * 2)),
    flipHorizontal := some (decide (d.rFlip > 0.5)),
    volume := some (.num (0.92 + d.rVol * 0.16)) }

/-- `generateProcessingConfig`: selects `configs[variationIndex %
configs.length]`, then overwrites `speed`, `brightness`, `contrast`
with the jitter pass.  Reading an absent key in JS arithmetic is NaN
(`optVal`), so a family without `contrast` still gets a present
`contrast` key (value NaN) in the returned object. -/
def generateProcessingConfig (variationIndex : ℕ) (d : Draws) : Config :=
  let baseConfig :=
    match variationIndex % 3 with
    | 0 => config1 d
    | 1 => config2 d
    | _ => config3 d
  { baseConfig with
    speed := some ((optVal baseConfig.speed).mul (.num (0.99 + d.jSpeed * 0.02))),
    brightness := some ((optVal baseConfig.brightness).add (.num ((d.jBright - 0.5) * 0.02))),
    contrast := some ((optVal baseConfig.contrast).mul (.num (0.99 + d.jContrast * 0.02))) }

/-- The keys present in the config object, in field order. -/
def presentKeys (c : Config) : List String :=
  (if c.speed.isSome then ["speed"] else [])
  ++ (if c.brightness.isSome then ["brightness"] else [])
  ++ (if c.contrast.isSome then ["contrast"] else [])
  ++ (if c.saturation.isSome then ["saturation"] else [])
  ++ (if c.gamma.isSome then ["gamma"] else [])
  ++ (if c.volume.isSome then ["volume"] else [])
  ++ (if c.scale.isSome then ["scale"] else [])
  ++ (if c.cropMargins.isSome then ["cropMargins"] else [])
  ++ (if c.flipHorizontal.isSome then ["flipHorizontal"] else [])
  ++ (if c.addNoise.isSome then ["addNoise"] else [])

/-- `Object.keys(config).filter(key => config[key] !== undefined &&
config[key] !== false)` (line 371): present keys whose value is not the
boolean `false`; a numeric key always passes (`0 !== false` under
strict inequality), in field order (JS object key order varies with the
construction site; claims about this list are membership claims). -/
def effectsList (c : Config) : List String :=
  (if c.speed.isSome then ["speed"] else [])
  ++ (if c.brightness.isSome then ["brightness"] else [])
  ++ (if c.contrast.isSome then ["contrast"] else [])
  ++ (if c.saturation.isSome then ["saturation"] else [])
  ++ (if c.gamma.isSome then ["gamma"] else [])
  ++ (if c.volume.isSome then ["volume"] else [])
  ++ (if c.scale.isSome then ["scale"] else [])
  ++ (if c.cropMargins.isSome then ["cropMargins"] else [])
  ++ (if c.flipHorizontal = some true then ["flipHorizontal"] else [])
  ++ (if c.addNoise = some true then ["addNoise"] else [])

/-- All draws at one half. -/
def dHalf : Draws :=
  ⟨1/2, 1/2, 1/2, 1/2, 1/2, 1/2, 1/2, 1/2, 1/2, 1/2, 1/2, 1/2, 1/2⟩

/-- C7 amended: the family is selected deterministically as `i mod 3`,
and the output contains exactly the selected family's parameters plus a
`contrast` key that the jitter pass always writes — for the third
family (which does not define contrast) that key holds NaN rather than
being absent. -/
theorem generateConfig_family_keys (i : ℕ) (d : Draws) :
    presentKeys (generateProcessingConfig i d) =
      (if i % 3 = 0 then
        ["speed", "brightness", "contrast", "saturation", "volume", "flipHorizontal"]
      else if i % 3 = 1 then
        ["speed", "brightness", "contrast", "saturation", "gamma", "volume", "addNoise"]
      else
        ["speed", "brightness", "contrast", "volume", "scale", "cropMargins",
          "flipHorizontal"])
    ∧ (i % 3 = 2 → (generateProcessingConfig i d).contrast = some .nan) := by
  have h3 : i % 3 = 0 ∨ i % 3 = 1 ∨ i % 3 = 2 := by omega
  rcases h3 with h | h | h <;>
    simp [generateProcessingConfig, config1, config2, config3, presentKeys, h,
      optVal, JNum.mul]

/-- C7 counterexample: the third family defines no `contrast`, yet the
synthesized config for variation index 2 carries a present `contrast`
key (holding NaN). -/
theorem generateConfig_contrast_leak :
    (config3 dHalf).contrast = none
    ∧ (generateProcessingConfig 2 dHalf).contrast = some .nan := ⟨rfl, rfl⟩

/-- Witness instantiating the amended synthesizer claim at index 2. -/
theorem generateConfig_family_keys_witness :
    presentKeys (generateProcessingConfig 2 dHalf) =
      ["speed", "brightness", "contrast", "volume", "scale", "cropMargins",
        "flipHorizontal"]
    ∧ (generateProcessingConfig 2 dHalf).contrast = some .nan :=
  ⟨by have h := (generateConfig_family_keys 2 dHalf).1; simpa using h,
   (generateConfig_family_keys 2 dHalf).2 rfl⟩

/-- Membership in an if-guarded singleton. -/
theorem mem_ite_singleton {p : Prop} [Decidable p] (a b : String) :
    (a ∈ (if p then [b] else [])) ↔ (p ∧ a = b) := by
  split_ifs with h <;> simp [h]

/-- C9 amended: the effects list contains exactly the names of the
parameters present in the config whose value is not the boolean
`false` — irrespective of identity values or thresholds — and it is
empty for the all-absent config. -/
theorem effects_iff_present (c : Config) :
    ("speed" ∈ effectsList c ↔ c.speed.isSome = true)
    ∧ ("brightness" ∈ effectsList c ↔ c.brightness.isSome = true)
    ∧ ("contrast" ∈ effectsList c ↔ c.contrast.isSome = true)
    ∧ ("saturation" ∈ effectsList c ↔ c.saturation.isSome = true)
    ∧ ("gamma" ∈ effectsList c ↔ c.gamma.isSome = true)
    ∧ ("volume" ∈ effectsList c ↔ c.volume.isSome = true)
    ∧ ("scale" ∈ effectsList c ↔ c.scale.isSome = true)
    ∧ ("cropMargins" ∈ effectsList c ↔ c.cropMargins.isSome = true)
    ∧ ("flipHorizontal" ∈ effectsList c ↔ c.flipHorizontal = some true)
    ∧ ("addNoise" ∈ effectsList c ↔ c.addNoise = some true)
    ∧ effectsList emptyConfig = [] := by
  simp [effectsList, emptyConfig, mem_ite_singleton]

/-- C9 counterexample: the variation-0 config at all-half draws has
every parameter either absent or exactly at its identity value (so no
stage deviates from identity beyond any threshold), yet its effects
list holds five names. -/
theorem effects_listed_without_application :
    effectsList (generateProcessingConfig 0 dHalf)
        = ["speed", "brightness", "contrast", "saturation", "volume"]
    ∧ (generateProcessingConfig 0 dHalf).speed = some (.num 1)
    ∧ (generateProcessingConfig 0 dHalf).brightness = some (.num 0)
    ∧ (generateProcessingConfig 0 dHalf).contrast = some (.num 1)
    ∧ (generateProcessingConfig 0 dHalf).saturation = some (.num 1)
    ∧ (generateProcessingConfig 0 dHalf).volume = some (.num 1)
    ∧ (generateProcessingConfig 0 dHalf).flipHorizontal = some false
    ∧ (generateProcessingConfig 0 dHalf).gamma = none
    ∧ (generateProcessingConfig 0 dHalf).scale = none
    ∧ (generateProcessingConfig 0 dHalf).cropMargins = none
    ∧ (generateProcessingConfig 0 dHalf).addNoise = none := by
  norm_num [generateProcessingConfig, config1, dHalf, effectsList, optVal,
    JNum.mul, JNum.add, decide_eq_false_iff_not]
  simp

/-! ### Transform pipeline (`processVideoWithFFmpeg`, lines 112–203)

The FFmpeg invocation is modelled by the ordered filter lists the code
builds; the noise strength `1 + Math.random() * 2` takes its draw as an
input. -/

/-- A video filter pushed onto `videoFilters`, with its parameters. -/
inductive VFilter where
  | setpts (factor : JNum)
  | eq (brightness contrast saturation gamma : Option JNum)
  | scale (factor : JNum)
  | crop (percent : JNum)
  | hflip
  | noise (strength : ℚ)
deriving DecidableEq, Repr

/-- An audio filter pushed onto `audioFilters`. -/
inductive AFilter where
  | atempo (speed : JNum)
  | volume (v : JNum)
deriving DecidableEq, Repr

/-- The filter lists `processVideoWithFFmpeg` builds from a config,
condition by condition in source order. -/
def buildFilters (config : Config) (noiseDraw : ℚ) : List VFilter × List AFilter :=
  -- if (config.speed && Math.abs(config.speed - 1) > 0.01)
  let speedOn := truthyOpt config.speed
    && ((optVal config.speed).sub (.num 1)).abs.gt (.num 0.01)
  let audioFilters : List AFilter :=
    if speedOn then [.atempo (optVal config.speed)] else []
  let videoFilters : List VFilter :=
    if speedOn then [.setpts ((JNum.num 1).div (optVal config.speed))] else []
  -- eq filter from all present brightness/contrast/saturation/gamma
  let videoFilters := videoFilters ++
    (if config.brightness.isSome || config.contrast.isSome
        || config.saturation.isSome || config.gamma.isSome then
      [.eq config.brightness config.contrast config.saturation config.gamma]
    else [])
  -- if (config.scale && Math.abs(config.scale - 1) > 0.005)
  let videoFilters := videoFilters ++
    (if truthyOpt config.scale
        && ((optVal config.scale).sub (.num 1)).abs.gt (.num 0.005) then
      [.scale (optVal config.scale)]
    else [])
  -- if (config.cropMargins && config.cropMargins > 0.5)
  let videoFilters := videoFilters ++
    (if truthyOpt config.cropMargins && (optVal config.cropMargins).gt (.num 0.5) then
      [.crop (((JNum.num 100).sub (optVal config.cropMargins)).div (.num 100))]
    else [])
  -- if (config.flipHorizontal)
  let videoFilters := videoFilters ++ (if flagSet config.flipHorizontal then [.hflip] else [])
  -- if (config.addNoise) — strength 1 + Math.random() * 2
  let videoFilters := videoFilters ++
    (if flagSet config.addNoise then [.noise (1 + noiseDraw * 2)] else [])
  -- if (config.volume && Math.abs(config.volume - 1) > 0.05)
  let audioFilters := audioFilters ++
    (if truthyOpt config.volume
        && ((optVal config.volume).sub (.num 1)).abs.gt (.num 0.05) then
      [.volume (optVal config.volume)]
    else [])
  (videoFilters, audioFilters)

/-- The pipeline as §4.2 of the spec words it: the same fixed stage
order, with inclusion conditions read off the spec sentences — the
temporal stage iff `|speed-1| > 0.01` (JS comparison, so an absent or
NaN speed fails it), the combined color-correction stage iff any of
brightness/contrast/saturation/gamma is present, scale iff
`|scale-1| > 0.005`, crop iff `cropMargins > 0.5`, flip and noise iff
their flags are set, audio gain iff `|volume-1| > 0.05`. -/
def specFilters (config : Config) (noiseDraw : ℚ) : List VFilter × List AFilter :=
  let speedOn := ((optVal config.speed).sub (.num 1)).abs.gt (.num 0.01)
  let audioFilters : List AFilter :=
    if speedOn then [.atempo (optVal config.speed)] else []
  let videoFilters : List VFilter :=
    if speedOn then [.setpts ((JNum.num 1).div (optVal config.speed))] else []
  let videoFilters := videoFilters ++
    (if config.brightness.isSome || config.contrast.isSome
        || config.saturation.isSome || config.gamma.isSome then
      [.eq config.brightness config.contrast config.saturation config.gamma]
    else [])
  let videoFilters := videoFilters ++
    (if ((optVal config.scale).sub (.num 1)).abs.gt (.num 0.005) then
      [.scale (optVal config.scale)]
    else [])
  let videoFilters := videoFilters ++
    (if (optVal config.cropMargins).gt (.num 0.5) then
      [.crop (((JNum.num 100).sub (optVal config.cropMargins)).div (.num 100))]
    else [])
  let videoFilters := videoFilters ++ (if flagSet config.flipHorizontal then [.hflip] else [])
  let videoFilters := videoFilters ++
    (if flagSet config.addNoise then [.noise (1 + noiseDraw * 2)] else [])
  let audioFilters := audioFilters ++
    (if ((optVal config.volume).sub (.num 1)).abs.gt (.num 0.05) then
      [.volume (optVal config.volume)]
    else [])
  (videoFilters, audioFilters)

/-- The `config.cropMargins &&` truthiness guard is redundant: a zero,
NaN or absent margin also fails `> 0.5`. -/
theorem crop_guard_eq (x : Option JNum) :
    (truthyOpt x && (optVal x).gt (.num (0.5 : ℚ))) = (optVal x).gt (.num (0.5 : ℚ)) := by
  rcases x with _ | v
  · rfl
  · rcases v with _ | q
    · rfl
    · rcases eq_or_ne q 0 with rfl | hq
      · simp [truthyOpt, optVal, JNum.truthy, JNum.gt]
        norm_num
      · simp [truthyOpt, optVal, JNum.truthy, hq]

/-- C8: the pipeline builds its stages in the fixed order temporal,
combined eq, scale, crop, flip, noise, with exactly the documented skip
thresholds and stage parameters (video factor `1/speed`, audio factor
`speed`), for any config whose speed, scale and volume are not the
literal number 0 (the JS truthiness guards skip those stages there; the
synthesizer never produces a zero). -/
theorem buildFilters_follows_spec (c : Config) (nd : ℚ)
    (hs : c.speed ≠ some (.num 0)) (hsc : c.scale ≠ some (.num 0))
    (hv : c.volume ≠ some (.num 0)) :
    buildFilters c nd = specFilters c nd := by
  unfold buildFilters specFilters
  rw [scale_guard_eq c.speed hs, scale_guard_eq c.scale hsc, scale_guard_eq c.volume hv,
    crop_guard_eq]

/-- Witness instantiating the pipeline claim at the concrete config
`cBig`. -/
theorem buildFilters_follows_spec_witness :
    buildFilters cBig (1/2) = specFilters cBig (1/2) :=
  buildFilters_follows_spec cBig (1/2) (by simp [cBig]) (by simp [cBig]) (by simp [cBig])

/-! ### Job engine (`processVideoReal`, lines 337–390)

The FFmpeg invocation, the output file's size and the clock are
oracles; the `for (let i = 0; i < variationCount; i++)` loop is driven
by the number of indices `i` with `i < variationCount`
(`loopCount`, with `lt_loopCount_iff` relating the two), so the
recursion is structural.  Besides the final job record, the loop also
returns the list of values successively assigned to `job.progress`, so
that lifetime claims about progress can be stated. -/

/-- Job status values. -/
inductive JStatus where
  | active
  | completed
  | failed
deriving DecidableEq, Repr

/-- One entry of the `results` array pushed per successful variation
(lines 364–372). -/
structure VariationResult where
  id : String
  name : String
  similarity : JNum
  downloadUrl : String
  size : ℚ
  processedAt : String
  effects : List String
deriving DecidableEq, Repr

/-- The job record stored in the `jobs` map.  `data` starts as `null`
and is only assigned (the whole results array) on successful
completion. -/
structure JobRec where
  status : JStatus
  progress : ℤ
  data : Option (List VariationResult)
  videoId : String
  variationCount : ℚ
  startedAt : String
  error : Option String := none
deriving DecidableEq, Repr

/-- The job record created by the process endpoint (lines 312–319). -/
def mkJob (videoId : String) (variationCount : ℚ) (startedAt : String) : JobRec :=
  { status := .active, progress := 0, data := none, videoId := videoId,
    variationCount := variationCount, startedAt := startedAt }

/-- How many natural numbers `i` satisfy `i < variationCount` — the
number of iterations of the processing loop. -/
def loopCount (vc : ℚ) : ℕ := if vc ≤ 0 then 0 else (⌈vc⌉).toNat

/-- The loop guard `i < variationCount` holds exactly for the first
`loopCount variationCount` indices. -/
theorem lt_loopCount_iff (vc : ℚ) (i : ℕ) : i < loopCount vc ↔ (i : ℚ) < vc := by
  unfold loopCount
  split_ifs with h
  · constructor
    · intro hi
      exact absurd hi (Nat.not_lt_zero i)
    · intro hi
      have : (0 : ℚ) ≤ (i : ℚ) := by positivity
      linarith
  · rw [Int.lt_toNat, Int.lt_ceil]
    push_cast
    rfl

/-- On a Nat-valued count the loop runs exactly that many times. -/
theorem loopCount_natCast (N : ℕ) : loopCount ((N : ℕ) : ℚ) = N := by
  unfold loopCount
  split_ifs with h
  · have : N = 0 := by exact_mod_cast le_antisymm (by exact_mod_cast h) (Nat.zero_le N)
    omega
  · rw [Int.ceil_natCast]
    exact Int.toNat_natCast N

/-- The body of `processVideoReal`'s loop.  Per iteration: run the
step (config synthesis + FFmpeg + scoring, or its failure), on error
set status `failed` with the captured message and stop (note: `data` is
untouched — `results` is a local variable), on success append the
result, assign `progress = Math.round(((i+1)/variationCount)*100)` and
continue; after the last iteration set status `completed` and assign
`data = results`.  Returns the final record and the list of progress
writes. -/
def runLoop (vc : ℚ) (step : ℕ → Except String VariationResult) :
    ℕ → ℕ → List VariationResult → JobRec → JobRec × List ℤ
  | 0, _, results, job => ({ job with status := .completed, data := some results }, [])
  | fuel + 1, i, results, job =>
    match step i with
    | .error msg => ({ job with status := .failed, error := some msg }, [])
    | .ok r =>
      let p : ℤ := jsRound ((((i : ℚ) + 1) / vc) * 100)
      let rest := runLoop vc step fuel (i + 1) (results ++ [r]) { job with progress := p }
      (rest.1, p :: rest.2)

/-- `processVideoReal`: if the source file is missing, fail
immediately; otherwise run the loop over all indices below
`variationCount`. -/
def processVideoReal (job : JobRec) (fileExists : Bool)
    (step : ℕ → Except String VariationResult) : JobRec × List ℤ :=
  if fileExists then
    runLoop job.variationCount step (loopCount job.variationCount) 0 [] job
  else
    ({ job with status := .failed, error := some "Video file not found" }, [])

/-- The `results` entry pushed for variation `i` (lines 364–372), from
the config, the file stats and the clock. -/
def mkResult (videoId : String) (i : ℕ) (config : Config) (size : ℚ)
    (time : String) : VariationResult :=
  { id := videoId ++ "_variation_" ++ toString (i + 1),
    name := "variation_" ++ toString (i + 1) ++ ".mp4",
    similarity := calculateSimilarity config,
    downloadUrl := "/api/video/download/" ++ videoId ++ "_variation_" ++ toString (i + 1),
    size := size,
    processedAt := time,
    effects := effectsList config }

/-- One loop iteration's work for variation `i` (lines 351–372):
synthesize the config, run FFmpeg (`ffmpegRun` oracle, failing with the
captured message), and build the `results` entry. -/
def realStep (videoId : String) (draws : ℕ → Draws)
    (ffmpegRun : ℕ → Except String Unit) (sizeOf : ℕ → ℚ) (timeOf : ℕ → String)
    (i : ℕ) : Except String VariationResult :=
  let config := generateProcessingConfig i (draws i)
  match ffmpegRun i with
  | .error e => .error e
  | .ok _ => .ok (mkResult videoId i config (sizeOf i) (timeOf i))

/-- The whole background task for one job. -/
def processJob (job : JobRec) (fileExists : Bool) (draws : ℕ → Draws)
    (ffmpegRun : ℕ → Except String Unit) (sizeOf : ℕ → ℚ) (timeOf : ℕ → String) :
    JobRec × List ℤ :=
  processVideoReal job fileExists (realStep job.videoId draws ffmpegRun sizeOf timeOf)

/-- A completed loop run appended exactly `fuel` further results. -/
theorem runLoop_completed_shape (vc : ℚ) (step : ℕ → Except String VariationResult) :
    ∀ fuel i results job,
      (runLoop vc step fuel i results job).1.status = .completed →
      ∃ rs, (runLoop vc step fuel i results job).1.data = some rs
        ∧ rs.length = results.length + fuel := by
  intro fuel
  induction fuel with
  | zero =>
    intro i results job _
    exact ⟨results, rfl, rfl⟩
  | succ n ih =>
    intro i results job hc
    rcases hstep : step i with msg | r <;> simp only [runLoop, hstep] at hc ⊢
    · exact absurd hc (by simp)
    · obtain ⟨rs, h1, h2⟩ := ih (i + 1) (results ++ [r]) _ hc
      exact ⟨rs, h1, by simp at h2; omega⟩

/-- If every step succeeds, the loop completes. -/
theorem runLoop_all_ok (vc : ℚ) (step : ℕ → Except String VariationResult)
    (hok : ∀ i, ∃ r, step i = .ok r) :
    ∀ fuel i results job, (runLoop vc step fuel i results job).1.status = .completed := by
  intro fuel
  induction fuel with
  | zero => intro i results job; rfl
  | succ n ih =>
    intro i results job
    obtain ⟨r, hr⟩ := hok i
    simp only [runLoop, hr]
    exact ih (i + 1) (results ++ [r]) _

/-- A loop that completes from an on-schedule progress value ends with
progress 100. -/
theorem runLoop_completed_progress (N : ℕ) (hN : 1 ≤ N)
    (step : ℕ → Except String VariationResult) :
    ∀ fuel i results job, fuel + i = N →
      job.progress = jsRound (((i : ℚ) / (N : ℚ)) * 100) →
      (runLoop (N : ℚ) step fuel i results job).1.status = .completed →
      (runLoop (N : ℚ) step fuel i results job).1.progress = 100 := by
  intro fuel
  induction fuel with
  | zero =>
    intro i results job hfi hp _
    have hiN : i = N := by omega
    subst hiN
    have hne : ((i : ℚ)) ≠ 0 := by
      have : (1 : ℚ) ≤ (i : ℚ) := by exact_mod_cast hN
      linarith
    show job.progress = 100
    rw [hp, div_self hne]
    norm_num [jsRound]
  | succ n ih =>
    intro i results job hfi hp hc
    rcases hstep : step i with msg | r <;> simp only [runLoop, hstep] at hc ⊢
    · exact absurd hc (by simp)
    · refine ih (i + 1) (results ++ [r]) _ (by omega) ?_ hc
      push_cast
      rfl

/-- Characterization of a run whose first failing step is index `k`:
the loop stops there with status `failed` and the captured message,
`data` keeps its creation value, and `progress` keeps the value written
after the `k` preceding successes (the entry value when `k = i`). -/
theorem runLoop_first_fail (vc : ℚ) (step : ℕ → Except String VariationResult)
    (k : ℕ) (msg : String) (hok : ∀ j, j < k → ∃ r, step j = .ok r)
    (hfail : step k = .error msg) :
    ∀ fuel i results job, i ≤ k → k < i + fuel →
      (runLoop vc step fuel i results job).1.status = .failed
      ∧ (runLoop vc step fuel i results job).1.error = some msg
      ∧ (runLoop vc step fuel i results job).1.data = job.data
      ∧ (runLoop vc step fuel i results job).1.progress
          = (if i = k then job.progress else jsRound (((k : ℚ) / vc) * 100)) := by
  intro fuel
  induction fuel with
  | zero =>
    intro i results job h1 h2
    omega
  | succ n ih =>
    intro i results job h1 h2
    rcases eq_or_lt_of_le h1 with rfl | hik
    · simp [runLoop, hfail]
    · obtain ⟨r, hr⟩ := hok i hik
      simp only [runLoop, hr]
      obtain ⟨s1, s2, s3, s4⟩ := ih (i + 1) (results ++ [r])
        { job with progress := jsRound ((((i : ℚ) + 1) / vc) * 100) } (by omega) (by omega)
      refine ⟨s1, s2, s3, ?_⟩
      rw [s4]
      rcases eq_or_ne (i + 1) k with h | h
      · rw [if_pos h, if_neg (by omega)]
        subst h
        push_cast
        rfl
      · rw [if_neg h, if_neg (by omega)]

/-- Every progress value the loop writes stays within 0–100, as long
as at most `N - i` iterations remain. -/
theorem runLoop_trace_bounds (N : ℕ) (step : ℕ → Except String VariationResult) :
    ∀ (fuel i : ℕ) (results : List VariationResult) (job : JobRec), fuel + i ≤ N →
      ∀ p ∈ (runLoop (N : ℚ) step fuel i results job).2, 0 ≤ p ∧ p ≤ 100 := by
  intro fuel
  induction fuel with
  | zero =>
    intro i results job _ p hp
    exact absurd hp (by simp [runLoop])
  | succ n ih =>
    intro i results job hfi p hp
    rcases hstep : step i with msg | r <;> simp only [runLoop, hstep] at hp
    · exact absurd hp (by simp)
    · rcases List.mem_cons.mp hp with rfl | hmem
      · have hi0 : (0 : ℚ) ≤ (i : ℚ) := by positivity
        have hiN : (i : ℚ) + 1 ≤ (N : ℚ) := by exact_mod_cast (by omega : i + 1 ≤ N)
        have hNpos : (0 : ℚ) < (N : ℚ) := by linarith
        have harg1 : (0 : ℚ) ≤ (((i : ℚ) + 1) / (N : ℚ)) * 100 := by positivity
        have harg2 : (((i : ℚ) + 1) / (N : ℚ)) * 100 ≤ 100 := by
          have : ((i : ℚ) + 1) / (N : ℚ) ≤ 1 := by
            rw [div_le_one hNpos]
            exact hiN
          nlinarith
        constructor
        · rw [jsRound, Int.le_floor]
          push_cast
          linarith
        · have h1 : ⌊((((i : ℚ) + 1) / (N : ℚ)) * 100 + 1/2 : ℚ)⌋ ≤ ⌊(100 + 1/2 : ℚ)⌋ :=
            Int.floor_le_floor (by linarith)
          have h2 : ⌊(100 + 1/2 : ℚ)⌋ = 100 := by norm_num
          rw [jsRound]
          omega
      · exact ih (i + 1) (results ++ [r]) _ (by omega) p hmem

/-- The progress writes are non-decreasing, starting from the
on-schedule value for the entry index. -/
theorem runLoop_trace_chain (N : ℕ) (hN : 1 ≤ N)
    (step : ℕ → Except String VariationResult) :
    ∀ (fuel i : ℕ) (results : List VariationResult) (job : JobRec),
      List.Chain' (· ≤ ·)
        (jsRound (((i : ℚ) / (N : ℚ)) * 100) :: (runLoop (N : ℚ) step fuel i results job).2) := by
  have hNpos : (0 : ℚ) < (N : ℚ) := by exact_mod_cast hN
  intro fuel
  induction fuel with
  | zero =>
    intro i results job
    simp [runLoop]
  | succ n ih =>
    intro i results job
    rcases hstep : step i with msg | r <;> simp only [runLoop, hstep]
    · simp
    · refine List.Chain'.cons ?_ ?_
      · apply Int.floor_le_floor
        have hmono : (i : ℚ) / (N : ℚ) ≤ ((i : ℚ) + 1) / (N : ℚ) := by
          gcongr
          linarith
        linarith
      · have h := ih (i + 1) (results ++ [r])
          { job with progress := jsRound ((((i : ℚ) + 1) / (N : ℚ)) * 100) }
        have hcast : (((i + 1 : ℕ) : ℚ)) = (i : ℚ) + 1 := by push_cast; rfl
        rw [hcast] at h
        exact h

theorem mkJob_videoId (v : String) (vc : ℚ) (t : String) : (mkJob v vc t).videoId = v := rfl

theorem mkJob_variationCount (v : String) (vc : ℚ) (t : String) :
    (mkJob v vc t).variationCount = vc := rfl

theorem mkJob_progress (v : String) (vc : ℚ) (t : String) : (mkJob v vc t).progress = 0 := rfl

theorem mkJob_data (v : String) (vc : ℚ) (t : String) : (mkJob v vc t).data = none := rfl

/-- C2: a job created with a positive variation count `N` that reaches
status `completed` holds exactly `N` results and progress 100. -/
theorem completed_job_has_N_results (v t : String) (fe : Bool) (draws : ℕ → Draws)
    (ffm : ℕ → Except String Unit) (sizeOf : ℕ → ℚ) (timeOf : ℕ → String)
    (N : ℕ) (hN : 1 ≤ N)
    (hc : (processJob (mkJob v ((N : ℕ) : ℚ) t) fe draws ffm sizeOf timeOf).1.status
      = .completed) :
    (∃ rs, (processJob (mkJob v ((N : ℕ) : ℚ) t) fe draws ffm sizeOf timeOf).1.data = some rs
      ∧ rs.length = N)
    ∧ (processJob (mkJob v ((N : ℕ) : ℚ) t) fe draws ffm sizeOf timeOf).1.progress = 100 := by
  cases fe with
  | false =>
    simp [processJob, processVideoReal] at hc
  | true =>
    simp only [processJob, processVideoReal, mkJob_videoId, mkJob_variationCount,
      loopCount_natCast, if_true] at hc ⊢
    constructor
    · obtain ⟨rs, h1, h2⟩ := runLoop_completed_shape _ _ N 0 [] _ hc
      exact ⟨rs, h1, by simpa using h2⟩
    · refine runLoop_completed_progress N hN _ N 0 [] _ (by omega) ?_ hc
      rw [mkJob_progress]
      norm_num [jsRound]

/-- Witness for the completed-job claim at `N = 1` with an all-success
FFmpeg oracle. -/
theorem completed_job_has_N_results_witness :
    (∃ rs, (processJob (mkJob "v1" ((1 : ℕ) : ℚ) "t0") true (fun _ => dHalf)
        (fun _ => .ok ()) (fun _ => 1) (fun _ => "ts")).1.data = some rs ∧ rs.length = 1)
    ∧ (processJob (mkJob "v1" ((1 : ℕ) : ℚ) "t0") true (fun _ => dHalf)
        (fun _ => .ok ()) (fun _ => 1) (fun _ => "ts")).1.progress = 100 :=
  completed_job_has_N_results "v1" "t0" true (fun _ => dHalf) (fun _ => .ok ())
    (fun _ => 1) (fun _ => "ts") 1 (by norm_num) (by
      simp only [processJob, processVideoReal, mkJob_videoId, mkJob_variationCount, if_true]
      exact runLoop_all_ok _ _ (fun i => ⟨_, rfl⟩) _ _ _ _)

/-- C3 amended: when the first failing variation is index `k`, the loop
stops there, the job ends `failed` with the captured message and with
progress as written after the `k` completed variations, but the partial
result list is discarded — the job's `data` stays `null` (the `results`
array is a local variable only assigned to the job on success), so the
completed variations' records are not retrievable from the job. -/
theorem failed_job_discards_partial_results (v t : String) (draws : ℕ → Draws)
    (ffm : ℕ → Except String Unit) (sizeOf : ℕ → ℚ) (timeOf : ℕ → String)
    (vc : ℚ) (k : ℕ) (msg : String)
    (hok : ∀ j, j < k → ffm j = .ok ())
    (hfail : ffm k = .error msg)
    (hk : (k : ℚ) < vc) :
    (processJob (mkJob v vc t) true draws ffm sizeOf timeOf).1.status = .failed
    ∧ (processJob (mkJob v vc t) true draws ffm sizeOf timeOf).1.error = some msg
    ∧ (processJob (mkJob v vc t) true draws ffm sizeOf timeOf).1.data = none
    ∧ (processJob (mkJob v vc t) true draws ffm sizeOf timeOf).1.progress
        = (if k = 0 then 0 else jsRound (((k : ℚ) / vc) * 100)) := by
  have hsok : ∀ j, j < k → ∃ r, realStep v draws ffm sizeOf timeOf j = .ok r := by
    intro j hj
    refine ⟨mkResult v j (generateProcessingConfig j (draws j)) (sizeOf j) (timeOf j), ?_⟩
    simp only [realStep, hok j hj]
  have hsfail : realStep v draws ffm sizeOf timeOf k = .error msg := by
    simp [realStep, hfail]
  have hlt : k < loopCount vc := (lt_loopCount_iff vc k).mpr hk
  obtain ⟨s1, s2, s3, s4⟩ := runLoop_first_fail vc _ k msg hsok hsfail
    (loopCount vc) 0 [] (mkJob v vc t) (Nat.zero_le k) (by omega)
  simp only [processJob, processVideoReal, mkJob_videoId, mkJob_variationCount, if_true]
  refine ⟨s1, s2, by rw [s3, mkJob_data], ?_⟩
  rw [s4]
  rcases eq_or_ne k 0 with rfl | h
  · rw [if_pos rfl, if_pos rfl, mkJob_progress]
  · rw [if_neg (by omega), if_neg h]

/-- Witness for the amended failure claim: two variations, the second
fails. -/
theorem failed_job_discards_partial_results_witness :
    (processJob (mkJob "v1" ((2 : ℕ) : ℚ) "t0") true (fun _ => dHalf)
        (fun i => if i = 0 then .ok () else .error "boom")
        (fun _ => 1) (fun _ => "ts")).1.status = .failed
    ∧ (processJob (mkJob "v1" ((2 : ℕ) : ℚ) "t0") true (fun _ => dHalf)
        (fun i => if i = 0 then .ok () else .error "boom")
        (fun _ => 1) (fun _ => "ts")).1.error = some "boom"
    ∧ (processJob (mkJob "v1" ((2 : ℕ) : ℚ) "t0") true (fun _ => dHalf)
        (fun i => if i = 0 then .ok () else .error "boom")
        (fun _ => 1) (fun _ => "ts")).1.data = none
    ∧ (processJob (mkJob "v1" ((2 : ℕ) : ℚ) "t0") true (fun _ => dHalf)
        (fun i => if i = 0 then .ok () else .error "boom")
        (fun _ => 1) (fun _ => "ts")).1.progress
        = (if 1 = 0 then 0 else jsRound ((((1 : ℕ) : ℚ) / ((2 : ℕ) : ℚ)) * 100)) :=
  failed_job_discards_partial_results "v1" "t0" (fun _ => dHalf)
    (fun i => if i = 0 then .ok () else .error "boom") (fun _ => 1) (fun _ => "ts")
    ((2 : ℕ) : ℚ) 1 "boom"
    (fun j hj => by
      have hj0 : j = 0 := by omega
      subst hj0
      rfl)
    rfl
    (by push_cast; norm_num)

/-- The FFmpeg oracle that succeeds on the first variation and fails on
the second. -/
def failAt1 : ℕ → Except String Unit := fun i => if i = 0 then .ok () else .error "boom"

/-- A two-variation job run against `failAt1`. -/
def failAt1Run : JobRec × List ℤ :=
  processJob (mkJob "v1" ((2 : ℕ) : ℚ) "t0") true (fun _ => dHalf) failAt1
    (fun _ => 1) (fun _ => "ts")

/-- C3 counterexample: variation 0 of this run succeeds (its pipeline
step returns a result), variation 1 fails, yet the failed job's `data`
is `none` — the completed variation's record is not retrievable from
the job, contradicting the claimed retention of partial results. -/
theorem failed_job_loses_partial_results :
    (realStep "v1" (fun _ => dHalf) failAt1 (fun _ => 1) (fun _ => "ts") 0).isOk = true
    ∧ failAt1Run.1.status = .failed
    ∧ failAt1Run.1.progress = 50
    ∧ failAt1Run.1.data = none := by
  have hsok : ∀ j, j < 1 → ∃ r,
      realStep "v1" (fun _ => dHalf) failAt1 (fun _ => 1) (fun _ => "ts") j = .ok r := by
    intro j hj
    have hj0 : j = 0 := by omega
    subst hj0
    exact ⟨_, rfl⟩
  have hsfail : realStep "v1" (fun _ => dHalf) failAt1 (fun _ => 1) (fun _ => "ts") 1
      = .error "boom" := rfl
  obtain ⟨s1, s2, s3, s4⟩ := runLoop_first_fail ((2 : ℕ) : ℚ) _ 1 "boom" hsok hsfail
    (loopCount ((2 : ℕ) : ℚ)) 0 [] (mkJob "v1" ((2 : ℕ) : ℚ) "t0") (Nat.zero_le 1)
    (by rw [loopCount_natCast]; omega)
  refine ⟨rfl, ?_, ?_, ?_⟩ <;>
    simp only [failAt1Run, processJob, processVideoReal, mkJob_videoId,
      mkJob_variationCount, if_true]
  · exact s1
  · rw [s4, if_neg (by omega)]
    push_cast
    norm_num [jsRound]
  · rw [s3, mkJob_data]

/-- C5 amended: over the lifetime of a job with a positive integral
variation count, the progress values are integers within 0–100 and
non-decreasing, and a completed job ends with progress 100; the
converse (progress 100 only on completion) is NOT part of this
statement — it is false, see the counterexample. -/
theorem progress_monotone_and_bounded (v t : String) (fe : Bool) (draws : ℕ → Draws)
    (ffm : ℕ → Except String Unit) (sizeOf : ℕ → ℚ) (timeOf : ℕ → String)
    (N : ℕ) (hN : 1 ≤ N) :
    (∀ p ∈ ((0 : ℤ) ::
        (processJob (mkJob v ((N : ℕ) : ℚ) t) fe draws ffm sizeOf timeOf).2),
      0 ≤ p ∧ p ≤ 100)
    ∧ List.Chain' (· ≤ ·) ((0 : ℤ) ::
        (processJob (mkJob v ((N : ℕ) : ℚ) t) fe draws ffm sizeOf timeOf).2)
    ∧ ((processJob (mkJob v ((N : ℕ) : ℚ) t) fe draws ffm sizeOf timeOf).1.status
          = .completed →
        (processJob (mkJob v ((N : ℕ) : ℚ) t) fe draws ffm sizeOf timeOf).1.progress
          = 100) := by
  cases fe with
  | false =>
    refine ⟨?_, ?_, ?_⟩ <;> simp [processJob, processVideoReal]
  | true =>
    simp only [processJob, processVideoReal, mkJob_videoId, mkJob_variationCount,
      loopCount_natCast, if_true]
    refine ⟨?_, ?_, ?_⟩
    · intro p hp
      rcases List.mem_cons.mp hp with rfl | hmem
      · norm_num
      · exact runLoop_trace_bounds N _ N 0 [] _ (by omega) p hmem
    · have h := runLoop_trace_chain N hN
        (realStep v draws ffm sizeOf timeOf) N 0 [] (mkJob v ((N : ℕ) : ℚ) t)
      have h0 : jsRound ((((0 : ℕ) : ℚ) / (N : ℚ)) * 100) = 0 := by
        norm_num [jsRound]
      rw [h0] at h
      exact h
    · intro hc
      refine runLoop_completed_progress N hN _ N 0 [] _ (by omega) ?_ hc
      rw [mkJob_progress]
      norm_num [jsRound]

/-- Witness for the amended progress claim at `N = 1` with an
all-success oracle. -/
theorem progress_monotone_and_bounded_witness :
    (∀ p ∈ ((0 : ℤ) ::
        (processJob (mkJob "v1" ((1 : ℕ) : ℚ) "t0") true (fun _ => dHalf)
          (fun _ => .ok ()) (fun _ => 1) (fun _ => "ts")).2),
      0 ≤ p ∧ p ≤ 100)
    ∧ List.Chain' (· ≤ ·) ((0 : ℤ) ::
        (processJob (mkJob "v1" ((1 : ℕ) : ℚ) "t0") true (fun _ => dHalf)
          (fun _ => .ok ()) (fun _ => 1) (fun _ => "ts")).2)
    ∧ ((processJob (mkJob "v1" ((1 : ℕ) : ℚ) "t0") true (fun _ => dHalf)
          (fun _ => .ok ()) (fun _ => 1) (fun _ => "ts")).1.status = .completed →
        (processJob (mkJob "v1" ((1 : ℕ) : ℚ) "t0") true (fun _ => dHalf)
          (fun _ => .ok ()) (fun _ => 1) (fun _ => "ts")).1.progress = 100) :=
  progress_monotone_and_bounded "v1" "t0" true (fun _ => dHalf) (fun _ => .ok ())
    (fun _ => 1) (fun _ => "ts") 1 (by norm_num)

/-- The FFmpeg oracle that succeeds on the first 199 variations and
fails on the 200th. -/
def failLast200 : ℕ → Except String Unit :=
  fun i => if i < 199 then .ok () else .error "boom"

/-- A 200-variation job run against `failLast200`. -/
def failLast200Run : JobRec × List ℤ :=
  processJob (mkJob "v1" ((200 : ℕ) : ℚ) "t0") true (fun _ => dHalf) failLast200
    (fun _ => 1) (fun _ => "ts")

/-- C5 counterexample: with 200 variations the progress written after
variation 199 is `Math.round(199/200*100) = Math.round(99.5) = 100`,
and the job subsequently fails — a failed job with progress 100, so
reaching 100 does not imply completion. -/
theorem progress_100_without_completion :
    failLast200Run.1.status = .failed ∧ failLast200Run.1.progress = 100 := by
  have hsok : ∀ j, j < 199 → ∃ r,
      realStep "v1" (fun _ => dHalf) failLast200 (fun _ => 1) (fun _ => "ts") j = .ok r := by
    intro j hj
    refine ⟨mkResult "v1" j (generateProcessingConfig j dHalf) 1 "ts", ?_⟩
    simp only [realStep, failLast200, if_pos hj]
  have hsfail : realStep "v1" (fun _ => dHalf) failLast200 (fun _ => 1) (fun _ => "ts") 199
      = .error "boom" := rfl
  obtain ⟨s1, _, _, s4⟩ := runLoop_first_fail ((200 : ℕ) : ℚ) _ 199 "boom" hsok hsfail
    (loopCount ((200 : ℕ) : ℚ)) 0 [] (mkJob "v1" ((200 : ℕ) : ℚ) "t0") (Nat.zero_le 199)
    (by rw [loopCount_natCast]; omega)
  constructor <;>
    simp only [failLast200Run, processJob, processVideoReal, mkJob_videoId,
      mkJob_variationCount, if_true]
  · exact s1
  · rw [s4, if_neg (by omega)]
    push_cast
    norm_num [jsRound]

/-! ### HTTP endpoints (`/api/video/process`, lines 302–334, and
`/api/video/status/:jobId`, lines 393–402) -/

/-- An entry of the `uploadedFiles` map; only its existence matters to
the process endpoint (`uploadedFiles.has(videoId)`). -/
structure VideoData where
  filename : String
deriving DecidableEq, Repr

/-- `Map.get`-style lookup on an association list. -/
def mapGet {α β : Type} [DecidableEq α] : List (α × β) → α → Option β
  | [], _ => none
  | (k, v) :: rest, k' => if k = k' then some v else mapGet rest k'

/-- The process endpoint's response body. -/
inductive ProcResponse where
  | ok (jobId : ℤ) (estimatedTime : ℤ)
  | err (httpCode : ℕ) (msg : String)
deriving DecidableEq, Repr

/-- The `/api/video/process` handler: destructure
`{ videoId, variationCount = 5 }`, reply 400 `Video not found` when
`videoId` is absent, empty (JS falsy) or not a key of `uploadedFiles`
— creating no job — and otherwise create the job under the incremented
counter (status `active`, progress 0, `data` null) and reply with the
job id and `Math.round(variationCount * 15)`.  `variationCount` itself
is never validated.  Returns (response, jobs map, counter). -/
def processEndpoint (uploadedFiles : List (String × VideoData))
    (jobs : List (ℤ × JobRec)) (jobCounter : ℤ)
    (videoId : Option String) (variationCount : Option ℚ) (startedAt : String) :
    ProcResponse × List (ℤ × JobRec) × ℤ :=
  let vc := variationCount.getD 5
  match videoId with
  | none => (.err 400 "Video not found", jobs, jobCounter)
  | some vid =>
    if vid = "" ∨ (mapGet uploadedFiles vid).isNone then
      (.err 400 "Video not found", jobs, jobCounter)
    else
      let jobId := jobCounter + 1
      (.ok jobId (jsRound (vc * 15)), jobs ++ [(jobId, mkJob vid vc startedAt)], jobId)

/-- C6 amended: the process request fails (400, no job created) exactly
when the video id is absent, empty or unknown; otherwise a job is
allocated under the incremented counter with status `active`, progress
0 and a `null` (not empty) result list — for any `variationCount`
whatsoever, since the handler never validates it. -/
theorem process_request_validation (files : List (String × VideoData))
    (jobs : List (ℤ × JobRec)) (ctr : ℤ) (vidOpt : Option String) (vc : Option ℚ)
    (t : String) :
    ((vidOpt = none ∨ vidOpt = some "" ∨ (∀ v, vidOpt = some v → mapGet files v = none)) →
      processEndpoint files jobs ctr vidOpt vc t = (.err 400 "Video not found", jobs, ctr))
    ∧ (∀ v, vidOpt = some v → v ≠ "" → (mapGet files v).isSome = true →
      processEndpoint files jobs ctr vidOpt vc t
        = (.ok (ctr + 1) (jsRound ((vc.getD 5) * 15)),
           jobs ++ [(ctr + 1, mkJob v (vc.getD 5) t)], ctr + 1)) := by
  constructor
  · intro h
    rcases hv : vidOpt with _ | v
    · rfl
    · subst hv
      unfold processEndpoint
      dsimp only
      rcases h with h | h | h
      · exact absurd h (by simp)
      · simp only [Option.some.injEq] at h
        subst h
        rw [if_pos (Or.inl rfl)]
      · rw [if_pos (Or.inr (by rw [h v rfl]; rfl))]
  · intro v hv hne hsome
    subst hv
    unfold processEndpoint
    dsimp only
    rw [if_neg ?_]
    push_neg
    refine ⟨hne, ?_⟩
    intro hn
    rw [Option.isNone_iff_eq_none] at hn
    rw [hn] at hsome
    simp at hsome

/-- A known uploaded video. -/
def vd0 : VideoData := ⟨"f.mp4"⟩

/-- C6 counterexample: with a known video id and `variationCount = 0`
(not a positive integer) the handler still creates a job and replies
with success — the claimed validation does not exist. -/
theorem process_accepts_nonpositive_count :
    (processEndpoint [("v1", vd0)] [] 0 (some "v1") (some 0) "t0").2.1
      = [(1, mkJob "v1" 0 "t0")]
    ∧ (processEndpoint [("v1", vd0)] [] 0 (some "v1") (some 0) "t0").1
      = .ok 1 0 := by
  constructor
  · rfl
  · norm_num [processEndpoint, mapGet, jsRound, vd0]
    rw [if_neg (by decide)]

/-- Witness instantiating the amended process-endpoint claim. -/
theorem process_request_validation_witness :
    processEndpoint [("v1", vd0)] [] 0 (some "v1") (some 3) "t0"
      = (.ok 1 (jsRound ((3 : ℚ) * 15)), [(1, mkJob "v1" 3 "t0")], 1) := by
  have h := (process_request_validation [("v1", vd0)] [] 0 (some "v1") (some 3) "t0").2
    "v1" rfl (by decide) rfl
  simpa using h

/-- `parseInt` in base 10: skip leading spaces, read an optional sign
and then the maximal digit prefix; NaN (here `none`) when no digit
follows. -/
def digitsVal : List Char → ℕ → ℕ
  | [], acc => acc
  | c :: cs, acc => digitsVal cs (acc * 10 + (c.toNat - 48))

/-- The value of the maximal leading digit run, if nonempty. -/
def leadingNat (cs : List Char) : Option ℕ :=
  let ds := cs.takeWhile (fun c => c.isDigit)
  if ds.isEmpty then none else some (digitsVal ds 0)

/-- `parseInt(s)` as used on `req.params.jobId`. -/
def parseIntJS (s : String) : Option ℤ :=
  match s.toList.dropWhile (fun c => c = ' ') with
  | '-' :: rest => (leadingNat rest).map (fun n => -(n : ℤ))
  | '+' :: rest => (leadingNat rest).map (fun n => (n : ℤ))
  | rest => (leadingNat rest).map (fun n => (n : ℤ))

/-- The status endpoint's response: HTTP code and body — either the
`{status: 'not_found'}` sentinel or the job record, both served as a
normal 200 response. -/
inductive StatusResponse where
  | notFound
  | job (j : JobRec)
deriving DecidableEq, Repr

/-- The `/api/video/status/:jobId` handler: parse the id, look it up in
the jobs map (a NaN id matches no integer key), and reply 200 with the
sentinel when missing or 200 with the job when found; no error path. -/
def statusEndpoint (jobs : List (ℤ × JobRec)) (jobIdParam : String) :
    ℕ × StatusResponse :=
  match parseIntJS jobIdParam with
  | none => (200, .notFound)
  | some n =>
    match mapGet jobs n with
    | none => (200, .notFound)
    | some j => (200, .job j)

/-- C10: querying the status of a job id that was never created returns
the `not_found` sentinel as a normal 200 response, never an error. -/
theorem unknown_job_status_not_found (jobs : List (ℤ × JobRec)) (s : String)
    (h : ∀ n, parseIntJS s = some n → mapGet jobs n = none) :
    statusEndpoint jobs s = (200, .notFound) := by
  unfold statusEndpoint
  rcases hp : parseIntJS s with _ | n <;> dsimp only
  rw [h n hp]

/-- Witness: an empty jobs map knows no id. -/
theorem unknown_job_status_not_found_witness :
    statusEndpoint [] "7" = (200, .notFound) :=
  unknown_job_status_not_found [] "7" (fun _ _ => rfl)

end VideoApp
